import Mathlib

set_option maxRecDepth 4000

/-
Shallow embedding of the apns notification queue, feedback reader and related
operations, translated from the Go source (notification queue in
src/unnamed/part_000, feedback reader in src/feedback.go). Machine integers are
modelled as Nat with explicit reduction modulo 2 ^ 32 where the Go code uses
uint32; time.Time is modelled as a Nat timestamp whose zero value is the Go
zero time. Locks are elided: the embedding is the sequential semantics of each
operation.
-/

/-- The internal, already-serialized notification item (Go struct notification,
declared outside src; its fields ID, Sended and its Len/WriteTo serializer
methods are used by the queue). Modelled from the spec: the per-item serializer
is an opaque blob of known length, so an item carries its serialized bytes in
`data`; Len is the length of `data` and WriteTo appends `data` to a sink. -/
structure notification where
  ID : Nat
  Sended : Nat
  data : List Nat
deriving DecidableEq, Inhabited, Repr

/-- Serialized length of an item (Go notification.Len). -/
def notification.Len (n : notification) : Nat := n.data.length

/-- The queue of part_000: the item list, the uint32 id counter and the index
of the first not-yet-sent item. The RWMutex field is elided. -/
structure notificationQueue where
  list : List notification
  counter : Nat
  idUnsended : Nat
deriving DecidableEq, Repr

/-- Initial queue state produced by newNotificationQueue (part_000:22-52); the
background eviction goroutine it spawns is modelled separately by
`notificationQueue.evictOnce`, one pass of its loop body. -/
def newNotificationQueue : notificationQueue := ⟨[], 0, 0⟩

/-- One step of the reverse scan of the eviction goroutine (part_000:33-47):
walking i downward, an item whose Sended is strictly after lifeTime is skipped;
at the first item with Sended ≤ lifeTime the list is truncated to list[i:] and
the cursor is decremented by i. -/
def notificationQueue.evictFrom (q : notificationQueue) (lifeTime : Nat) : Nat → notificationQueue
  | 0 => q
  | i + 1 =>
    if lifeTime < (q.list.getD i default).Sended then
      notificationQueue.evictFrom q lifeTime i
    else
      { list := q.list.drop (i + 1), counter := q.counter,
        idUnsended := q.idUnsended - (i + 1) }

/-- One pass of the background cache-eviction loop of newNotificationQueue
(part_000:26-50), with lifeTime standing for now - CacheLifeTime. -/
def notificationQueue.evictOnce (q : notificationQueue) (lifeTime : Nat) : notificationQueue :=
  notificationQueue.evictFrom q lifeTime q.idUnsended

/-- Value of one hexadecimal digit, as accepted by Go encoding/hex fromHexChar. -/
def hexDigit (c : Char) : Option Nat :=
  if '0' ≤ c ∧ c ≤ '9' then some (c.toNat - 48)
  else if 'a' ≤ c ∧ c ≤ 'f' then some (c.toNat - 87)
  else if 'A' ≤ c ∧ c ≤ 'F' then some (c.toNat - 55)
  else none

/-- Go encoding/hex DecodeString on a character list: decodes digit pairs; an
odd-length input or a non-hex character yields an error (none). -/
def hexDecode : List Char → Option (List Nat)
  | [] => some []
  | [_] => none
  | a :: b :: rest =>
    match hexDigit a, hexDigit b, hexDecode rest with
    | some x, some y, some tail => some ((16 * x + y) :: tail)
    | _, _, _ => none

/-- Errors surfaced by the enqueue path. -/
inductive ApnsError
  | malformedPayload
deriving DecidableEq, Repr

/-- The caller-facing notification template (Go struct Notification, declared
outside src). Modelled from the spec: a template either serializes to a payload
or fails conversion with MalformedPayload, so it is just an optional
serialized form. -/
structure Notification where
  payload : Option (List Nat)
deriving DecidableEq, Repr

/-- Conversion of a template to the internal representation (Notification.convert,
declared outside src). Modelled from the spec: conversion fails with a
MalformedPayload error exactly when the payload cannot be serialized. -/
def Notification.convert (n : Notification) : Except ApnsError (List Nat) :=
  match n.payload with
  | some d => .ok d
  | none => .error .malformedPayload

/-- Attaching a device token to a converted template (template.WithToken,
declared outside src). Modelled from the spec: the item serialized bytes are
the template bytes with the 32 token bytes spliced in; only their length and
identity matter to the queue logic. ID and Sended start at their zero values. -/
def withToken (tmpl btoken : List Nat) : notification :=
  ⟨0, 0, tmpl ++ btoken⟩

/-- The token loop of AddNotification (part_000:68-80): tokens that do not
hex-decode, or whose decoded length is not 32, are skipped; each remaining
token increments the uint32 counter and appends one item carrying the new
counter value as its ID. -/
def addLoop (tmpl : List Nat) : notificationQueue → List String → notificationQueue
  | q, [] => q
  | q, token :: rest =>
    match hexDecode token.toList with
    | none => addLoop tmpl q rest
    | some btoken =>
      if btoken.length ≠ 32 then addLoop tmpl q rest
      else
        addLoop tmpl
          { list := q.list ++ [{ withToken tmpl btoken with ID := (q.counter + 1) % 2 ^ 32 }],
            counter := (q.counter + 1) % 2 ^ 32,
            idUnsended := q.idUnsended } rest

/-- AddNotification (part_000:59-83): returns immediately when no token is
supplied, converts the template once, propagating a conversion error, then
runs the token loop. -/
def notificationQueue.AddNotification (q : notificationQueue) (ntf : Notification)
    (tokens : List String) : Except ApnsError notificationQueue :=
  if tokens.length = 0 then .ok q
  else
    match ntf.convert with
    | .error e => .error e
    | .ok tmpl => .ok (addLoop tmpl q tokens)

/-- IsHasToSend (part_000:86-91). -/
def notificationQueue.IsHasToSend (q : notificationQueue) : Bool :=
  q.list.length > q.idUnsended

/-- Put (part_000:95-105): assigns a fresh counter value to each incoming item
whose ID is zero, then appends all of them. -/
def notificationQueue.Put (q : notificationQueue) (items : List notification) : notificationQueue :=
  let step : Nat × List notification → notification → Nat × List notification :=
    fun acc item =>
      if item.ID = 0 then
        ((acc.1 + 1) % 2 ^ 32, acc.2 ++ [{ item with ID := (acc.1 + 1) % 2 ^ 32 }])
      else (acc.1, acc.2 ++ [item])
  let r := items.foldl step (q.counter, [])
  ⟨q.list ++ r.2, r.1, q.idUnsended⟩

/-- Get (part_000:109-119): returns the first unsent item stamped with the
current time (the stamp is shared with the stored item, modelled by updating
the list) and advances the cursor; returns none when nothing is pending. -/
def notificationQueue.Get (q : notificationQueue) (now : Nat) :
    Option notification × notificationQueue :=
  if q.IsHasToSend then
    let result := { q.list.getD q.idUnsended default with Sended := now }
    (some result,
      { list := q.list.set q.idUnsended result, counter := q.counter,
        idUnsended := q.idUnsended + 1 })
  else (none, q)

/-- The scan of ResendFromID (part_000:129-142): i runs over the sent region;
when an item with the wanted ID is found the list is truncated at it (or just
after it when exclude is set) and the cursor is reset to zero. The fuel
argument counts the remaining iterations, idUnsended - i. -/
def notificationQueue.resendAux (q : notificationQueue) (wanted : Nat) (exclude : Bool) :
    Nat → Nat → Bool × notificationQueue
  | _, 0 => (false, q)
  | i, fuel + 1 =>
    if (q.list.getD i default).ID = wanted then
      (true,
        { list := q.list.drop (if exclude then i + 1 else i), counter := q.counter,
          idUnsended := 0 })
    else notificationQueue.resendAux q wanted exclude (i + 1) fuel

/-- ResendFromID (part_000:127-145). -/
def notificationQueue.ResendFromID (q : notificationQueue) (wanted : Nat) (exclude : Bool) :
    Bool × notificationQueue :=
  notificationQueue.resendAux q wanted exclude 0 q.idUnsended

/-- State carried out of the WriteTo loop: the item list (with Sended stamps),
the frames written to the sink, the byte total and the Go variable sended. -/
structure FlushState where
  list : List notification
  writes : List (List Nat)
  total : Nat
  sended : Nat
deriving DecidableEq, Repr

/-- The loop of WriteTo (part_000:160-180) on an error-free sink, with maxF for
MaxFrameBuffer and now for time.Now(). Iteration i (fuel = length - i): when
the item still fits the buffer it is serialized into it and stamped, and the
loop continues unless it was the last item; otherwise the buffer is flushed as
one frame, sended is set to i, and the loop moves on to i + 1 (so in the
overflow case item i itself is neither buffered nor retried). -/
def writeToAux (maxF now : Nat) :
    Nat → Nat → List notification → List Nat → List (List Nat) → Nat → Nat → FlushState
  | 0, _, l, _, writes, total, sended => ⟨l, writes, total, sended⟩
  | fuel + 1, i, l, buf, writes, total, sended =>
    let ntf := l.getD i default
    if buf.length + ntf.Len ≤ maxF then
      let l' := l.set i { ntf with Sended := now }
      let buf' := buf ++ ntf.data
      if i < l.length - 1 then
        writeToAux maxF now fuel (i + 1) l' buf' writes total sended
      else
        ⟨l', writes ++ [buf'], total + buf'.length, i⟩
    else
      writeToAux maxF now fuel (i + 1) l [] (writes ++ [buf]) (total + buf.length) i

/-- Result of WriteTo: frames written to the sink in order, total byte count,
and the queue after the final cursor update. -/
structure WriteResult where
  writes : List (List Nat)
  total : Nat
  queue : notificationQueue
deriving DecidableEq, Repr

/-- WriteTo (part_000:154-190) on an error-free sink: runs the batching loop
over the pending region, then advances the cursor to sended + 1 only when
idUnsended < sended holds strictly. -/
def notificationQueue.WriteTo (q : notificationQueue) (maxF now : Nat) : WriteResult :=
  let r := writeToAux maxF now (q.list.length - q.idUnsended) q.idUnsended q.list [] [] 0 0
  if q.idUnsended < r.sended then
    ⟨r.writes, r.total, ⟨r.list, q.counter, r.sended + 1⟩⟩
  else
    ⟨r.writes, r.total, ⟨r.list, q.counter, q.idUnsended⟩⟩

/-- One element of the feedback server response (feedback.go:17-20). -/
structure FeedbackResponse where
  timestamp : Nat
  Token : List Nat
deriving DecidableEq, Repr

/-- Terminal condition of a byte stream: a graceful end of stream or another
I/O error carrying an opaque code. -/
inductive IOError
  | eof
  | other (code : Nat)
deriving DecidableEq, Repr

/-- The error mapping of the Feedback read loop (feedback.go:48-50, 56-58): a
graceful end of stream is reported as no error, anything else is returned. -/
def errToOption : IOError → Option IOError
  | .eof => none
  | .other c => some (.other c)

/-- Big-endian 16-bit value of the first two bytes of a list, as in
binary.BigEndian.Uint16 over header[4:6]. -/
def be16 (l : List Nat) : Nat :=
  l.getD 0 0 * 256 + l.getD 1 0

/-- Big-endian 32-bit value of the first four bytes of a list, as in
binary.BigEndian.Uint32 over header[0:4]. -/
def be32 (l : List Nat) : Nat :=
  ((l.getD 0 0 * 256 + l.getD 1 0) * 256 + l.getD 2 0) * 256 + l.getD 3 0

/-- The read loop of Feedback (feedback.go:46-66). The connection is modelled
as the byte list still to be delivered followed by a terminal condition; a
read of n bytes either consumes exactly n bytes or, when fewer remain, hits
the terminal condition. Each iteration reads a 6-byte header (4-byte
big-endian timestamp, 2-byte big-endian token length), then the token bytes,
and appends one record. -/
def readFeedbackLoop (result : List FeedbackResponse) (data : List Nat) (terminal : IOError) :
    List FeedbackResponse × Option IOError :=
  if h6 : data.length < 6 then (result, errToOption terminal)
  else
    if htk : (data.drop 6).length < be16 (data.drop 4) then (result, errToOption terminal)
    else
      readFeedbackLoop (result ++ [⟨be32 data, (data.drop 6).take (be16 (data.drop 4))⟩])
        ((data.drop 6).drop (be16 (data.drop 4))) terminal
termination_by data.length
decreasing_by
  simp only [List.length_drop] at *
  omega

/-- Overall result of Feedback: the parsed records, the returned error and
whether the connection was closed. -/
structure FeedbackResult where
  records : List FeedbackResponse
  err : Option IOError
  connClosed : Bool
deriving DecidableEq, Repr

/-- Feedback (feedback.go:30-67): dialing is modelled by the argument, an
error or the stream the connection will deliver. On a dial error the error is
returned with no records and no connection was ever opened; otherwise the read
loop runs and the deferred Close marks the connection closed on that exit
path. -/
def Feedback : Except IOError (List Nat × IOError) → FeedbackResult
  | .error e => ⟨[], some e, false⟩
  | .ok (data, terminal) =>
    let r := readFeedbackLoop [] data terminal
    ⟨r.1, r.2, true⟩

/-- Big-endian 2-byte encoding of a value below 2 ^ 16. -/
def be16enc (n : Nat) : List Nat := [n / 256 % 256, n % 256]

/-- Big-endian 4-byte encoding of a value below 2 ^ 32. -/
def be32enc (n : Nat) : List Nat :=
  [n / 2 ^ 24 % 256, n / 2 ^ 16 % 256, n / 256 % 256, n % 256]

/-- Wire image of one feedback record: timestamp, token length, token bytes
(spec §6, feedback frame). -/
def encodeFeedback (r : FeedbackResponse) : List Nat :=
  be32enc r.timestamp ++ be16enc r.Token.length ++ r.Token

/-- A token is kept by the AddNotification loop exactly when it hex-decodes to
32 bytes. -/
def isValidToken (t : String) : Bool :=
  match hexDecode t.toList with
  | some b => b.length == 32
  | none => false

/-- A sequence of AddNotification calls on one queue instance; a call that
returns an error leaves the queue unchanged for the next call. -/
def runOps : notificationQueue → List (Notification × List String) → notificationQueue
  | q, [] => q
  | q, op :: rest =>
    match q.AddNotification op.1 op.2 with
    | .ok q' => runOps q' rest
    | .error _ => runOps q rest

/-- The id bookkeeping AddNotification maintains: the counter is the item
count reduced modulo 2 ^ 32 and the item at index j carries id
(j + 1) % 2 ^ 32. -/
def idsAssigned (q : notificationQueue) : Prop :=
  q.counter = q.list.length % 2 ^ 32 ∧
  ∀ j, j < q.list.length → (q.list.getD j default).ID = (j + 1) % 2 ^ 32

/-- A device token of 64 hex characters, decoding to 32 bytes 0xaa. -/
def tok0 : String := "aaaaaaaaaaaaaaaaaaaaaaaaaaaaaaaaaaaaaaaaaaaaaaaaaaaaaaaaaaaaaaaa"

/-- A 62-character token: hex-decodable but only 31 bytes long. -/
def tokShort : String := "aaaaaaaaaaaaaaaaaaaaaaaaaaaaaaaaaaaaaaaaaaaaaaaaaaaaaaaaaaaaaa"

/-- A token that is not hex-decodable. -/
def tokBadHex : String := "zz"

/-- A 68-byte converted template, so that each queued item serializes to
68 + 32 = 100 bytes. -/
def tmpl68 : List Nat := List.replicate 68 0

/-- A template whose conversion succeeds with the 68-byte payload. -/
def ntf100 : Notification := ⟨some tmpl68⟩

/-- A template whose conversion succeeds with an empty payload. -/
def ntf0 : Notification := ⟨some []⟩

/-- Queue reached from a fresh queue by enqueueing ntf100 for 30 valid tokens:
30 pending items of 100 serialized bytes each. -/
def q30 : notificationQueue :=
  addLoop tmpl68 newNotificationQueue (List.replicate 30 tok0)

/-- Queue reached from a fresh queue by enqueueing ntf100 for one valid token:
a single pending 100-byte item. -/
def q1 : notificationQueue := addLoop tmpl68 newNotificationQueue [tok0]

/-- An already-sent item with id i, stamped at time i. -/
def sentItem (i : Nat) : notification := ⟨i, i, []⟩

/-- Queue with sent items of ids 1..5 and one pending item of id 6. -/
def q5 : notificationQueue :=
  ⟨[sentItem 1, sentItem 2, sentItem 3, sentItem 4, sentItem 5, ⟨6, 0, []⟩], 6, 5⟩

/-- Length-level image of the WriteTo loop state: the indices whose Sended
stamp the loop sets, the lengths of the frames it flushes, the bytes it adds
to total, and the final value of the loop variable sended. -/
structure MirrorState where
  stamps : List Nat
  flush : List Nat
  totalDelta : Nat
  sendedOut : Nat
deriving DecidableEq, Repr

/-- Length-level mirror of writeToAux: the same control flow, tracking only
the buffer length and the serialized lengths of the items. Proven equivalent
to writeToAux in writeToAux_mirror; it exists because the loop decisions
depend only on lengths. -/
def writeToMirror (maxF : Nat) (lens : List Nat) : Nat → Nat → Nat → Nat → MirrorState
  | 0, _, _, sended => ⟨[], [], 0, sended⟩
  | fuel + 1, i, bufLen, sended =>
    if bufLen + lens.getD i 0 ≤ maxF then
      if i < lens.length - 1 then
        let r := writeToMirror maxF lens fuel (i + 1) (bufLen + lens.getD i 0) sended
        ⟨i :: r.stamps, r.flush, r.totalDelta, r.sendedOut⟩
      else ⟨[i], [bufLen + lens.getD i 0], bufLen + lens.getD i 0, i⟩
    else
      let r := writeToMirror maxF lens fuel (i + 1) 0 i
      ⟨r.stamps, bufLen :: r.flush, bufLen + r.totalDelta, r.sendedOut⟩

/-- Application of the Sended stamps collected by the mirror to an item list. -/
def applyStamps (now : Nat) (st : List Nat) (l : List notification) : List notification :=
  st.foldl (fun acc j => acc.set j { acc.getD j default with Sended := now }) l

/-- Queue with three sent items stamped at times 1, 2, 5 and one pending
item, used to exercise the eviction boundary. -/
def qe : notificationQueue :=
  ⟨[⟨1, 1, []⟩, ⟨2, 2, []⟩, ⟨3, 5, []⟩, ⟨4, 0, []⟩], 4, 3⟩

/-- First record of the spec feedback scenario: timestamp 1000000000, token of
32 bytes 0xAA. -/
def fr1 : FeedbackResponse := ⟨1000000000, List.replicate 32 170⟩

/-- Second record of the spec feedback scenario: timestamp 1000000100, token
of 32 bytes 0xBB. -/
def fr2 : FeedbackResponse := ⟨1000000100, List.replicate 32 187⟩

/-- C10: AddNotification with an empty token list returns nil before the
template is converted and without touching the queue, for every template,
including one whose payload cannot be serialized. -/
theorem addNotification_empty_tokens_noop (q : notificationQueue) (ntf : Notification) :
    q.AddNotification ntf [] = .ok q := rfl

theorem getD_map_len (l : List notification) :
    ∀ i, (l.map notification.Len).getD i 0 = (l.getD i default).Len := by
  induction l with
  | nil => intro i; cases i <;> rfl
  | cons a t ih =>
    intro i
    cases i with
    | zero => rfl
    | succ n => simpa [List.getD] using ih n

theorem mapLen_set (l : List notification) :
    ∀ (i now : Nat),
      (l.set i { l.getD i default with Sended := now }).map notification.Len =
        l.map notification.Len := by
  induction l with
  | nil => intro i now; rfl
  | cons a t ih =>
    intro i now
    cases i with
    | zero => rfl
    | succ n => simpa [List.getD, List.set] using ih n now

theorem applyStamps_cons (now j : Nat) (st : List Nat) (l : List notification) :
    applyStamps now (j :: st) l =
      applyStamps now st (l.set j { l.getD j default with Sended := now }) := rfl

theorem applyStamps_length (now : Nat) :
    ∀ (st : List Nat) (l : List notification), (applyStamps now st l).length = l.length := by
  intro st
  induction st with
  | nil => intro l; rfl
  | cons j t ih =>
    intro l
    rw [applyStamps_cons, ih, List.length_set]

theorem writeToAux_succ (maxF now fuel i : Nat) (l : List notification) (buf : List Nat)
    (writes : List (List Nat)) (total sended : Nat) :
    writeToAux maxF now (fuel + 1) i l buf writes total sended =
      if buf.length + (l.getD i default).Len ≤ maxF then
        if i < l.length - 1 then
          writeToAux maxF now fuel (i + 1) (l.set i { l.getD i default with Sended := now })
            (buf ++ (l.getD i default).data) writes total sended
        else
          ⟨l.set i { l.getD i default with Sended := now },
           writes ++ [buf ++ (l.getD i default).data],
           total + (buf ++ (l.getD i default).data).length, i⟩
      else
        writeToAux maxF now fuel (i + 1) l [] (writes ++ [buf]) (total + buf.length) i := rfl

theorem writeToMirror_succ (maxF fuel i bufLen sended : Nat) (lens : List Nat) :
    writeToMirror maxF lens (fuel + 1) i bufLen sended =
      if bufLen + lens.getD i 0 ≤ maxF then
        if i < lens.length - 1 then
          ⟨i :: (writeToMirror maxF lens fuel (i + 1) (bufLen + lens.getD i 0) sended).stamps,
           (writeToMirror maxF lens fuel (i + 1) (bufLen + lens.getD i 0) sended).flush,
           (writeToMirror maxF lens fuel (i + 1) (bufLen + lens.getD i 0) sended).totalDelta,
           (writeToMirror maxF lens fuel (i + 1) (bufLen + lens.getD i 0) sended).sendedOut⟩
        else ⟨[i], [bufLen + lens.getD i 0], bufLen + lens.getD i 0, i⟩
      else
        ⟨(writeToMirror maxF lens fuel (i + 1) 0 i).stamps,
         bufLen :: (writeToMirror maxF lens fuel (i + 1) 0 i).flush,
         bufLen + (writeToMirror maxF lens fuel (i + 1) 0 i).totalDelta,
         (writeToMirror maxF lens fuel (i + 1) 0 i).sendedOut⟩ := rfl

theorem writeToAux_mirror (maxF now : Nat) :
    ∀ (fuel i : Nat) (l : List notification) (buf : List Nat) (writes : List (List Nat))
      (total sended : Nat),
      (writeToAux maxF now fuel i l buf writes total sended).list =
        applyStamps now
          (writeToMirror maxF (l.map notification.Len) fuel i buf.length sended).stamps l ∧
      (writeToAux maxF now fuel i l buf writes total sended).writes.map List.length =
        writes.map List.length ++
          (writeToMirror maxF (l.map notification.Len) fuel i buf.length sended).flush ∧
      (writeToAux maxF now fuel i l buf writes total sended).total =
        total + (writeToMirror maxF (l.map notification.Len) fuel i buf.length sended).totalDelta ∧
      (writeToAux maxF now fuel i l buf writes total sended).sended =
        (writeToMirror maxF (l.map notification.Len) fuel i buf.length sended).sendedOut := by
  intro fuel
  induction fuel with
  | zero =>
    intro i l buf writes total sended
    simp [writeToAux, writeToMirror, applyStamps]
  | succ fuel ih =>
    intro i l buf writes total sended
    rw [writeToAux_succ, writeToMirror_succ]
    simp only [getD_map_len, List.length_map]
    by_cases h1 : buf.length + (l.getD i default).Len ≤ maxF
    · rw [if_pos h1, if_pos h1]
      by_cases h2 : i < l.length - 1
      · rw [if_pos h2, if_pos h2]
        have ih' := ih (i + 1) (l.set i { l.getD i default with Sended := now })
          (buf ++ (l.getD i default).data) writes total sended
        rw [mapLen_set] at ih'
        have hb : (buf ++ (l.getD i default).data).length =
            buf.length + (l.getD i default).Len := by
          simp [notification.Len]
        rw [hb] at ih'
        exact ih'
      · rw [if_neg h2, if_neg h2]
        refine ⟨rfl, ?_, ?_, rfl⟩
        · show (writes ++ [buf ++ (l.getD i default).data]).map List.length = _
          simp [notification.Len]
        · show total + (buf ++ (l.getD i default).data).length = _
          simp [notification.Len]
    · rw [if_neg h1, if_neg h1]
      have ih' := ih (i + 1) l [] (writes ++ [buf]) (total + buf.length) i
      simp only [List.length_nil] at ih'
      refine ⟨ih'.1, ?_, ?_, ih'.2.2.2⟩
      · rw [ih'.2.1]
        simp
      · rw [ih'.2.2.1]
        show _ = total + (buf.length + _)
        omega

theorem writeTo_eq (q : notificationQueue) (maxF now : Nat) :
    q.WriteTo maxF now =
      if q.idUnsended <
          (writeToAux maxF now (q.list.length - q.idUnsended) q.idUnsended q.list [] [] 0 0).sended
      then
        ⟨(writeToAux maxF now (q.list.length - q.idUnsended) q.idUnsended q.list [] [] 0 0).writes,
         (writeToAux maxF now (q.list.length - q.idUnsended) q.idUnsended q.list [] [] 0 0).total,
         ⟨(writeToAux maxF now (q.list.length - q.idUnsended) q.idUnsended q.list [] [] 0 0).list,
          q.counter,
          (writeToAux maxF now (q.list.length - q.idUnsended) q.idUnsended q.list [] [] 0 0).sended + 1⟩⟩
      else
        ⟨(writeToAux maxF now (q.list.length - q.idUnsended) q.idUnsended q.list [] [] 0 0).writes,
         (writeToAux maxF now (q.list.length - q.idUnsended) q.idUnsended q.list [] [] 0 0).total,
         ⟨(writeToAux maxF now (q.list.length - q.idUnsended) q.idUnsended q.list [] [] 0 0).list,
          q.counter, q.idUnsended⟩⟩ := rfl

theorem writeTo_mirror (q : notificationQueue) (maxF now : Nat) :
    (q.WriteTo maxF now).writes.map List.length =
      (writeToMirror maxF (q.list.map notification.Len)
        (q.list.length - q.idUnsended) q.idUnsended 0 0).flush ∧
    (q.WriteTo maxF now).total =
      (writeToMirror maxF (q.list.map notification.Len)
        (q.list.length - q.idUnsended) q.idUnsended 0 0).totalDelta ∧
    (q.WriteTo maxF now).queue.list =
      applyStamps now
        (writeToMirror maxF (q.list.map notification.Len)
          (q.list.length - q.idUnsended) q.idUnsended 0 0).stamps q.list ∧
    (q.WriteTo maxF now).queue.counter = q.counter ∧
    (q.WriteTo maxF now).queue.idUnsended =
      (if q.idUnsended <
          (writeToMirror maxF (q.list.map notification.Len)
            (q.list.length - q.idUnsended) q.idUnsended 0 0).sendedOut
        then (writeToMirror maxF (q.list.map notification.Len)
            (q.list.length - q.idUnsended) q.idUnsended 0 0).sendedOut + 1
        else q.idUnsended) := by
  have h := writeToAux_mirror maxF now (q.list.length - q.idUnsended) q.idUnsended q.list [] [] 0 0
  simp only [List.length_nil, List.map_nil, List.nil_append, Nat.zero_add] at h
  obtain ⟨e1, e2, e3, e4⟩ := h
  rw [writeTo_eq, e4]
  by_cases hc : q.idUnsended <
      (writeToMirror maxF (q.list.map notification.Len)
        (q.list.length - q.idUnsended) q.idUnsended 0 0).sendedOut
  · rw [if_pos hc, if_pos hc]
    exact ⟨e2, e3, e1, rfl, rfl⟩
  · rw [if_neg hc, if_neg hc]
    exact ⟨e2, e3, e1, rfl, rfl⟩

/-- C1: on the reachable queue of 30 pending 100-byte items with a 2048-byte
frame ceiling, WriteTo performs two writes of 2000 and 900 bytes (not 1000),
2900 bytes in total (not 3000), and advances the cursor to 30 even though the
item at index 20 was never transmitted (its Sended stamp is still zero): when
the buffer fills, the loop flushes and then skips the item that did not fit. -/
theorem writeTo_batch_over_limit_bug :
    (notificationQueue.WriteTo q30 2048 7).writes.map List.length = [2000, 900] ∧
    (notificationQueue.WriteTo q30 2048 7).total = 2900 ∧
    (notificationQueue.WriteTo q30 2048 7).queue.idUnsended = 30 ∧
    ((notificationQueue.WriteTo q30 2048 7).queue.list.getD 20 default).Sended = 0 := by
  obtain ⟨hw, ht, hl, _, hi⟩ := writeTo_mirror q30 2048 7
  refine ⟨?_, ?_, ?_, ?_⟩
  · rw [hw]; decide
  · rw [ht]; decide
  · rw [hi]; decide
  · rw [hl]; decide

/-- C2: on the reachable queue with a single pending 100-byte item, WriteTo
flushes the item but leaves the cursor at 0, because the cursor-advance guard
idUnsended < sended is strict; a second WriteTo therefore writes the very same
item (id 1) a second time. -/
theorem writeTo_single_item_duplicate_bug :
    (notificationQueue.WriteTo q1 2048 5).writes.map List.length = [100] ∧
    (notificationQueue.WriteTo q1 2048 5).queue.idUnsended = 0 ∧
    (notificationQueue.WriteTo (notificationQueue.WriteTo q1 2048 5).queue 2048 6).writes =
      (notificationQueue.WriteTo q1 2048 5).writes ∧
    ((notificationQueue.WriteTo q1 2048 5).queue.list.getD 0 default).ID = 1 := by
  decide

/-- C3: after one WriteTo on the reachable 30-item queue the cursor is 30,
within bounds, yet the item at index 20 — strictly below the cursor — still
has a zero Sended stamp, so the cursor invariant that every item below
pendingFrom carries a non-zero sentAt is violated by the flush that skipped
that item. -/
theorem cursor_invariant_violation_bug :
    (notificationQueue.WriteTo q30 2048 7).queue.idUnsended ≤
      (notificationQueue.WriteTo q30 2048 7).queue.list.length ∧
    20 < (notificationQueue.WriteTo q30 2048 7).queue.idUnsended ∧
    ((notificationQueue.WriteTo q30 2048 7).queue.list.getD 20 default).Sended = 0 := by
  obtain ⟨_, _, hl, _, hi⟩ := writeTo_mirror q30 2048 7
  refine ⟨?_, ?_, ?_⟩
  · rw [hl, hi, applyStamps_length]; decide
  · rw [hi]; decide
  · rw [hl]; decide

theorem resendAux_not_found (q : notificationQueue) (wanted : Nat) (exclude : Bool) :
    ∀ fuel i, (∀ j, j < fuel → (q.list.getD (i + j) default).ID ≠ wanted) →
      q.resendAux wanted exclude i fuel = (false, q) := by
  intro fuel
  induction fuel with
  | zero => intro i _; rfl
  | succ n ih =>
    intro i h
    have h0 : (q.list.getD i default).ID ≠ wanted := by
      have := h 0 (Nat.succ_pos n)
      simpa using this
    show q.resendAux wanted exclude i (n + 1) = (false, q)
    unfold notificationQueue.resendAux
    rw [if_neg h0]
    apply ih
    intro j hj
    have := h (j + 1) (Nat.succ_lt_succ hj)
    simpa [show i + (j + 1) = i + 1 + j from by omega] using this

theorem resendFromID_not_found (q : notificationQueue) (wanted : Nat) (exclude : Bool)
    (h : ∀ j, j < q.idUnsended → (q.list.getD j default).ID ≠ wanted) :
    q.ResendFromID wanted exclude = (false, q) := by
  unfold notificationQueue.ResendFromID
  apply resendAux_not_found
  intro j hj
  simpa using h j hj

/-- C5: on the queue with sent items 1..5 and pending item 6, ResendFromID 5
with exclude off succeeds, discards items 1..4 and resets the cursor so items
5 and 6 are next to be sent; with exclude on, item 5 is also discarded and
resend starts at item 6; and whenever the wanted id is carried by no item of
the sent region, the call returns false and leaves the queue unchanged. -/
theorem resendFromID_correct :
    notificationQueue.ResendFromID q5 5 false =
      (true, ⟨[sentItem 5, ⟨6, 0, []⟩], 6, 0⟩) ∧
    notificationQueue.ResendFromID q5 5 true = (true, ⟨[⟨6, 0, []⟩], 6, 0⟩) ∧
    ∀ (q : notificationQueue) (wanted : Nat) (exclude : Bool),
      (∀ j, j < q.idUnsended → (q.list.getD j default).ID ≠ wanted) →
      q.ResendFromID wanted exclude = (false, q) := by
  refine ⟨by decide, by decide, ?_⟩
  intro q wanted exclude h
  exact resendFromID_not_found q wanted exclude h

/-- Witness: id 42 is carried by no sent item of q5, so the resend call
reports failure and leaves q5 unchanged. -/
theorem resendFromID_correct_witness :
    notificationQueue.ResendFromID q5 42 false = (false, q5) :=
  resendFromID_correct.2.2 q5 42 false (by decide)

theorem evictFrom_zero (q : notificationQueue) (lifeTime : Nat) :
    q.evictFrom lifeTime 0 = q := rfl

theorem evictFrom_succ (q : notificationQueue) (lifeTime n : Nat) :
    q.evictFrom lifeTime (n + 1) =
      if lifeTime < (q.list.getD n default).Sended then q.evictFrom lifeTime n
      else ⟨q.list.drop (n + 1), q.counter, q.idUnsended - (n + 1)⟩ := rfl

theorem evictFrom_spec (q : notificationQueue) (lifeTime k : Nat)
    (hstale : ∀ j, j < k → (q.list.getD j default).Sended ≤ lifeTime) :
    ∀ i, k ≤ i →
      (∀ j, k ≤ j → j < i → lifeTime < (q.list.getD j default).Sended) →
      q.evictFrom lifeTime i =
        if k = 0 then q
        else ⟨q.list.drop k, q.counter, q.idUnsended - k⟩ := by
  intro i
  induction i with
  | zero =>
    intro hk _
    have hk0 : k = 0 := Nat.le_zero.mp hk
    rw [evictFrom_zero, if_pos hk0]
  | succ n ih =>
    intro hk hfresh
    rw [evictFrom_succ]
    by_cases hkn : k = n + 1
    · have hst : (q.list.getD n default).Sended ≤ lifeTime := hstale n (by omega)
      rw [if_neg (by omega)]
      rw [if_neg (by omega)]
      rw [hkn]
    · have hfr : lifeTime < (q.list.getD n default).Sended := hfresh n (by omega) (by omega)
      rw [if_pos hfr]
      exact ih (by omega) (fun j h1 h2 => hfresh j h1 (by omega))

/-- C4: on any queue whose sent region splits into a stale prefix of k items
(sentAt at or before the cutoff) followed by fresh sent items, one eviction
pass removes exactly those k items, decrements the cursor by exactly k, and
leaves the queue unchanged when k = 0; lifeTime stands for now minus the
retention window. -/
theorem eviction_boundary_correct (q : notificationQueue) (lifeTime k : Nat)
    (hk : k ≤ q.idUnsended)
    (hstale : ∀ j, j < k → (q.list.getD j default).Sended ≤ lifeTime)
    (hfresh : ∀ j, j < q.idUnsended - k →
      lifeTime < (q.list.getD (k + j) default).Sended) :
    q.evictOnce lifeTime =
      if k = 0 then q
      else ⟨q.list.drop k, q.counter, q.idUnsended - k⟩ := by
  unfold notificationQueue.evictOnce
  apply evictFrom_spec q lifeTime k hstale q.idUnsended hk
  intro j h1 h2
  have h3 := hfresh (j - k) (by omega)
  rwa [show k + (j - k) = j from by omega] at h3

/-- Witness: on qe with cutoff 3, the two items stamped at times 1 and 2 are
stale; eviction drops exactly them and moves the cursor from 3 to 1. -/
theorem eviction_boundary_witness :
    notificationQueue.evictOnce qe 3 =
      (if 2 = 0 then qe else ⟨qe.list.drop 2, qe.counter, qe.idUnsended - 2⟩) :=
  eviction_boundary_correct qe 3 2 (by decide) (by decide) (by decide)

theorem addLoop_cons (tmpl : List Nat) (q : notificationQueue) (t : String)
    (rest : List String) :
    addLoop tmpl q (t :: rest) =
      if isValidToken t then
        addLoop tmpl
          ⟨q.list ++ [{ withToken tmpl ((hexDecode t.toList).getD []) with
              ID := (q.counter + 1) % 2 ^ 32 }],
           (q.counter + 1) % 2 ^ 32, q.idUnsended⟩ rest
      else addLoop tmpl q rest := by
  show (match hexDecode t.toList with
    | none => addLoop tmpl q rest
    | some btoken =>
      if btoken.length ≠ 32 then addLoop tmpl q rest
      else
        addLoop tmpl
          ⟨q.list ++ [{ withToken tmpl btoken with ID := (q.counter + 1) % 2 ^ 32 }],
           (q.counter + 1) % 2 ^ 32, q.idUnsended⟩ rest) = _
  rcases hdec : hexDecode t.toList with _ | btoken
  · have hdec' : hexDecode t.data = none := hdec
    simp [isValidToken, hdec']
  · have hdec' : hexDecode t.data = some btoken := hdec
    simp only [isValidToken, hdec', hdec]
    by_cases hlen : btoken.length = 32
    · simp [hlen]
    · simp [hlen]

theorem addLoop_grows (tmpl : List Nat) :
    ∀ (tokens : List String) (q : notificationQueue),
      ∃ added : List notification,
        (addLoop tmpl q tokens).list = q.list ++ added ∧
        added.length = tokens.countP (fun t => isValidToken t) := by
  intro tokens
  induction tokens with
  | nil =>
    intro q
    exact ⟨[], by simp [addLoop], by simp⟩
  | cons t rest ih =>
    intro q
    rw [addLoop_cons]
    by_cases hv : isValidToken t
    · rw [if_pos hv]
      obtain ⟨added, h1, h2⟩ := ih
        ⟨q.list ++ [{ withToken tmpl ((hexDecode t.toList).getD []) with
            ID := (q.counter + 1) % 2 ^ 32 }],
         (q.counter + 1) % 2 ^ 32, q.idUnsended⟩
      refine ⟨{ withToken tmpl ((hexDecode t.toList).getD []) with
          ID := (q.counter + 1) % 2 ^ 32 } :: added, ?_, ?_⟩
      · rw [h1]
        simp
      · simp [List.countP_cons, hv, h2]
    · rw [if_neg hv]
      obtain ⟨added, h1, h2⟩ := ih q
      refine ⟨added, h1, ?_⟩
      rw [h2, List.countP_cons]
      simp [hv]

/-- C6: whenever the template converts, AddNotification returns no error, and
the queue gains exactly one item per token that hex-decodes to 32 bytes:
tokens of the wrong decoded length or that are not hex-decodable contribute
nothing, valid tokens contribute one item each. -/
theorem addNotification_token_filtering (q : notificationQueue) (ntf : Notification)
    (tokens : List String) (tmpl : List Nat) (hconv : ntf.convert = .ok tmpl) :
    ∃ q' : notificationQueue,
      q.AddNotification ntf tokens = .ok q' ∧
      ∃ added : List notification,
        q'.list = q.list ++ added ∧
        added.length = tokens.countP (fun t => isValidToken t) := by
  cases tokens with
  | nil => exact ⟨q, rfl, [], by simp, by simp⟩
  | cons t rest =>
    refine ⟨addLoop tmpl q (t :: rest), ?_, addLoop_grows tmpl (t :: rest) q⟩
    unfold notificationQueue.AddNotification
    rw [if_neg (by simp), hconv]

/-- Witness: the first token is valid, the second hex-decodes to 31 bytes and
the third is not hex at all, so exactly one item is appended and no error is
returned. -/
theorem addNotification_token_filtering_witness :
    ∃ q' : notificationQueue,
      newNotificationQueue.AddNotification ntf0 [tok0, tokShort, tokBadHex] = .ok q' ∧
      ∃ added : List notification,
        q'.list = newNotificationQueue.list ++ added ∧
        added.length = [tok0, tokShort, tokBadHex].countP (fun t => isValidToken t) :=
  addNotification_token_filtering newNotificationQueue ntf0 [tok0, tokShort, tokBadHex] [] rfl

theorem getD_append_lt {α : Type} (d : α) :
    ∀ (l l' : List α) (j : Nat), j < l.length → (l ++ l').getD j d = l.getD j d := by
  intro l
  induction l with
  | nil =>
    intro l' j h
    simp at h
  | cons a t ih =>
    intro l' j h
    cases j with
    | zero => rfl
    | succ n =>
      have hn : n < t.length := by simpa using h
      simpa [List.getD] using ih l' n hn

theorem getD_append_self {α : Type} (d : α) :
    ∀ (l : List α) (x : α), (l ++ [x]).getD l.length d = x := by
  intro l
  induction l with
  | nil => intro x; rfl
  | cons a t ih => intro x; simp only [List.length_cons, List.cons_append, List.getD]; exact ih x

theorem pow32_val : (2 : Nat) ^ 32 = 4294967296 := by norm_num

theorem idsAssigned_append (q : notificationQueue) (x : notification) (u : Nat)
    (h : idsAssigned q) (hx : x.ID = (q.counter + 1) % 2 ^ 32) :
    idsAssigned ⟨q.list ++ [x], (q.counter + 1) % 2 ^ 32, u⟩ := by
  obtain ⟨hc, hid⟩ := h
  constructor
  · show (q.counter + 1) % 2 ^ 32 = (q.list ++ [x]).length % 2 ^ 32
    rw [hc, List.length_append, List.length_singleton, pow32_val]
    omega
  · intro j hj
    rw [List.length_append, List.length_singleton] at hj
    rcases Nat.lt_or_ge j q.list.length with hlt | hge
    · show ((q.list ++ [x]).getD j default).ID = (j + 1) % 2 ^ 32
      rw [getD_append_lt default q.list [x] j hlt]
      exact hid j hlt
    · have hj' : j = q.list.length := by omega
      show ((q.list ++ [x]).getD j default).ID = (j + 1) % 2 ^ 32
      rw [hj', getD_append_self, hx, hc, pow32_val]
      omega

theorem addLoop_ids (tmpl : List Nat) :
    ∀ (tokens : List String) (q : notificationQueue),
      idsAssigned q → idsAssigned (addLoop tmpl q tokens) := by
  intro tokens
  induction tokens with
  | nil => intro q h; exact h
  | cons t rest ih =>
    intro q h
    rw [addLoop_cons]
    by_cases hv : isValidToken t
    · rw [if_pos hv]
      exact ih _ (idsAssigned_append q _ q.idUnsended h rfl)
    · rw [if_neg hv]
      exact ih q h

theorem addNotification_ok_ids (q q' : notificationQueue) (ntf : Notification)
    (tokens : List String) (h : idsAssigned q)
    (hA : q.AddNotification ntf tokens = .ok q') : idsAssigned q' := by
  unfold notificationQueue.AddNotification at hA
  by_cases hlen : tokens.length = 0
  · rw [if_pos hlen] at hA
    cases hA
    exact h
  · rw [if_neg hlen] at hA
    cases hc : ntf.convert with
    | error e => rw [hc] at hA; cases hA
    | ok tmpl =>
      rw [hc] at hA
      cases hA
      exact addLoop_ids tmpl tokens q h

theorem runOps_cons (q : notificationQueue) (op : Notification × List String)
    (rest : List (Notification × List String)) :
    runOps q (op :: rest) =
      match q.AddNotification op.1 op.2 with
      | .ok q' => runOps q' rest
      | .error _ => runOps q rest := rfl

theorem runOps_ids :
    ∀ (ops : List (Notification × List String)) (q : notificationQueue),
      idsAssigned q → idsAssigned (runOps q ops) := by
  intro ops
  induction ops with
  | nil => intro q h; exact h
  | cons op rest ih =>
    intro q h
    rw [runOps_cons]
    cases hA : q.AddNotification op.1 op.2 with
    | error e => exact ih q h
    | ok q' => exact ih q' (addNotification_ok_ids q q' op.1 op.2 h hA)

theorem newQueue_idsAssigned : idsAssigned newNotificationQueue := by
  constructor
  · rfl
  · intro j hj
    simp [newNotificationQueue] at hj

theorem isValidToken_tok0 : isValidToken tok0 = true := by decide

theorem addNotification_tok0 (q : notificationQueue) :
    q.AddNotification ntf0 [tok0] =
      .ok ⟨q.list ++ [{ withToken [] ((hexDecode tok0.toList).getD []) with
            ID := (q.counter + 1) % 2 ^ 32 }],
        (q.counter + 1) % 2 ^ 32, q.idUnsended⟩ := by
  show Except.ok (addLoop [] q [tok0]) = _
  rw [addLoop_cons, if_pos isValidToken_tok0]
  rfl

theorem runOps_replicate_length :
    ∀ (n : Nat) (q : notificationQueue),
      (runOps q (List.replicate n (ntf0, [tok0]))).list.length = q.list.length + n := by
  intro n
  induction n with
  | zero => intro q; simp [runOps]
  | succ m ih =>
    intro q
    rw [List.replicate_succ, runOps_cons]
    have hstep := addNotification_tok0 q
    rw [hstep]
    show (runOps ⟨q.list ++ [_], (q.counter + 1) % 2 ^ 32, q.idUnsended⟩
      (List.replicate m (ntf0, [tok0]))).list.length = _
    rw [ih]
    simp
    omega

/-- C7 counterexample: the id counter is a uint32, so after 2 ^ 32 single-token
Enqueue calls on one fresh queue the counter wraps: the first item was assigned
id 1 but the last (index 2 ^ 32 - 1, within bounds) was assigned id 0, so the
assigned ids are not strictly increasing in insertion order (and the next id
to be assigned, 1, would repeat an existing one). -/
theorem monotonic_ids_wraparound_counterexample :
    (0 : Nat) < 2 ^ 32 - 1 ∧
    2 ^ 32 - 1 <
      (runOps newNotificationQueue (List.replicate (2 ^ 32) (ntf0, [tok0]))).list.length ∧
    ¬ (((runOps newNotificationQueue
          (List.replicate (2 ^ 32) (ntf0, [tok0]))).list.getD 0 default).ID <
        ((runOps newNotificationQueue
          (List.replicate (2 ^ 32) (ntf0, [tok0]))).list.getD (2 ^ 32 - 1) default).ID) := by
  have hlen : (runOps newNotificationQueue
      (List.replicate (2 ^ 32) (ntf0, [tok0]))).list.length = 2 ^ 32 := by
    rw [runOps_replicate_length]
    rfl
  obtain ⟨-, hid⟩ :=
    runOps_ids (List.replicate (2 ^ 32) (ntf0, [tok0])) newNotificationQueue
      newQueue_idsAssigned
  have h0 : ((runOps newNotificationQueue
      (List.replicate (2 ^ 32) (ntf0, [tok0]))).list.getD 0 default).ID = 1 := by
    rw [hid 0 (by rw [hlen, pow32_val]; omega), pow32_val]
  have hl : ((runOps newNotificationQueue
      (List.replicate (2 ^ 32) (ntf0, [tok0]))).list.getD (2 ^ 32 - 1) default).ID = 0 := by
    rw [hid (2 ^ 32 - 1) (by rw [hlen, pow32_val]; omega), pow32_val]
  refine ⟨by rw [pow32_val]; omega, by rw [hlen, pow32_val]; omega, ?_⟩
  rw [h0, hl]
  omega

/-- C7 amended: for every sequence of AddNotification calls on one fresh queue
in which fewer than 2 ^ 32 items are queued in total (so the uint32 counter
never wraps), the assigned ids are strictly increasing in insertion order and
unique for the lifetime of the queue. -/
theorem monotonic_ids_below_wrap (ops : List (Notification × List String))
    (h : (runOps newNotificationQueue ops).list.length < 2 ^ 32) :
    (∀ i j, i < j → j < (runOps newNotificationQueue ops).list.length →
        ((runOps newNotificationQueue ops).list.getD i default).ID <
          ((runOps newNotificationQueue ops).list.getD j default).ID) ∧
    (∀ i j, i < (runOps newNotificationQueue ops).list.length →
        j < (runOps newNotificationQueue ops).list.length →
        ((runOps newNotificationQueue ops).list.getD i default).ID =
          ((runOps newNotificationQueue ops).list.getD j default).ID → i = j) := by
  obtain ⟨-, hid⟩ := runOps_ids ops newNotificationQueue newQueue_idsAssigned
  have key : ∀ m, m < (runOps newNotificationQueue ops).list.length →
      ((runOps newNotificationQueue ops).list.getD m default).ID = m + 1 := by
    intro m hm
    rw [hid m hm, Nat.mod_eq_of_lt (by rw [pow32_val] at h ⊢; omega)]
  constructor
  · intro i j hij hj
    rw [key i (by omega), key j hj]
    omega
  · intro i j hi hj he
    rw [key i hi, key j hj] at he
    omega

/-- Witness: two single-token Enqueue calls on a fresh queue stay far below
the wrap bound, and the two assigned ids come out strictly increasing. -/
theorem monotonic_ids_below_wrap_witness :
    ((runOps newNotificationQueue
        (List.replicate 2 (ntf0, [tok0]))).list.getD 0 default).ID <
      ((runOps newNotificationQueue
        (List.replicate 2 (ntf0, [tok0]))).list.getD 1 default).ID :=
  (monotonic_ids_below_wrap (List.replicate 2 (ntf0, [tok0]))
    (by rw [runOps_replicate_length 2 newNotificationQueue, pow32_val]
        norm_num [newNotificationQueue])).1
    0 1 (by omega)
    (by rw [runOps_replicate_length 2 newNotificationQueue]
        norm_num [newNotificationQueue])

theorem readFeedbackLoop_nil (acc : List FeedbackResponse) (terminal : IOError) :
    readFeedbackLoop acc [] terminal = (acc, errToOption terminal) := by
  unfold readFeedbackLoop
  simp

theorem readFeedbackLoop_record (acc : List FeedbackResponse) (r : FeedbackResponse)
    (rest : List Nat) (terminal : IOError)
    (hts : r.timestamp < 2 ^ 32) (htk : r.Token.length < 2 ^ 16) :
    readFeedbackLoop acc (encodeFeedback r ++ rest) terminal =
      readFeedbackLoop (acc ++ [r]) rest terminal := by
  have hdata : encodeFeedback r ++ rest =
      r.timestamp / 2 ^ 24 % 256 :: r.timestamp / 2 ^ 16 % 256 :: r.timestamp / 256 % 256 ::
      r.timestamp % 256 :: r.Token.length / 256 % 256 :: r.Token.length % 256 ::
      (r.Token ++ rest) := by
    simp [encodeFeedback, be32enc, be16enc]
  rw [hdata]
  rw [readFeedbackLoop]
  have h6 : ¬ (r.timestamp / 2 ^ 24 % 256 :: r.timestamp / 2 ^ 16 % 256 ::
      r.timestamp / 256 % 256 :: r.timestamp % 256 :: r.Token.length / 256 % 256 ::
      r.Token.length % 256 :: (r.Token ++ rest)).length < 6 := by
    simp
  rw [dif_neg h6]
  have hdrop4 : (r.timestamp / 2 ^ 24 % 256 :: r.timestamp / 2 ^ 16 % 256 ::
      r.timestamp / 256 % 256 :: r.timestamp % 256 :: r.Token.length / 256 % 256 ::
      r.Token.length % 256 :: (r.Token ++ rest)).drop 4 =
      r.Token.length / 256 % 256 :: r.Token.length % 256 :: (r.Token ++ rest) := rfl
  have hdrop6 : (r.timestamp / 2 ^ 24 % 256 :: r.timestamp / 2 ^ 16 % 256 ::
      r.timestamp / 256 % 256 :: r.timestamp % 256 :: r.Token.length / 256 % 256 ::
      r.Token.length % 256 :: (r.Token ++ rest)).drop 6 = r.Token ++ rest := rfl
  rw [hdrop4, hdrop6]
  have hbe16 : be16 (r.Token.length / 256 % 256 :: r.Token.length % 256 ::
      (r.Token ++ rest)) = r.Token.length := by
    show r.Token.length / 256 % 256 * 256 + r.Token.length % 256 = r.Token.length
    rw [pow_succ, pow_succ] at htk
    omega
  rw [hbe16]
  have hlen2 : ¬ (r.Token ++ rest).length < r.Token.length := by
    simp
  rw [dif_neg hlen2]
  have hbe32 : be32 (r.timestamp / 2 ^ 24 % 256 :: r.timestamp / 2 ^ 16 % 256 ::
      r.timestamp / 256 % 256 :: r.timestamp % 256 :: r.Token.length / 256 % 256 ::
      r.Token.length % 256 :: (r.Token ++ rest)) = r.timestamp := by
    show ((r.timestamp / 2 ^ 24 % 256 * 256 + r.timestamp / 2 ^ 16 % 256) * 256 +
        r.timestamp / 256 % 256) * 256 + r.timestamp % 256 = r.timestamp
    have h32 : r.timestamp < 4294967296 := by rw [pow32_val] at hts; exact hts
    omega
  rw [hbe32]
  rw [List.take_left, List.drop_left]

theorem readFeedbackLoop_encodes (terminal : IOError) :
    ∀ (records : List FeedbackResponse) (acc : List FeedbackResponse),
      (∀ r ∈ records, r.timestamp < 2 ^ 32 ∧ r.Token.length < 2 ^ 16) →
      readFeedbackLoop acc (records.map encodeFeedback).flatten terminal =
        (acc ++ records, errToOption terminal) := by
  intro records
  induction records with
  | nil =>
    intro acc _
    simpa using readFeedbackLoop_nil acc terminal
  | cons r rest ih =>
    intro acc h
    rw [List.map_cons, List.flatten_cons]
    rw [readFeedbackLoop_record acc r _ terminal (h r (by simp)).1 (h r (by simp)).2]
    rw [ih (acc ++ [r]) (fun x hx => h x (by simp [hx]))]
    simp

/-- C8: for every record list and terminal condition, the Feedback reader of a
stream carrying the big-endian encodings of those records produces exactly one
record per (6-byte header, token-bytes) group, in stream order, taking the
timestamp from bytes 0-4 and the token length from bytes 4-6; it returns them
with no error when the stream ends gracefully and alongside the error
otherwise; and on every post-dial path, whatever the stream, the connection
ends up closed. -/
theorem feedback_parse_correct (records : List FeedbackResponse) (terminal : IOError)
    (h : ∀ r ∈ records, r.timestamp < 2 ^ 32 ∧ r.Token.length < 2 ^ 16) :
    Feedback (.ok ((records.map encodeFeedback).flatten, terminal)) =
      ⟨records, errToOption terminal, true⟩ ∧
    ∀ (data : List Nat) (t : IOError), (Feedback (.ok (data, t))).connClosed = true := by
  constructor
  · show (⟨(readFeedbackLoop [] (records.map encodeFeedback).flatten terminal).1,
        (readFeedbackLoop [] (records.map encodeFeedback).flatten terminal).2,
        true⟩ : FeedbackResult) = _
    rw [readFeedbackLoop_encodes terminal records [] h]
    simp
  · intro data t
    rfl

/-- Witness: the spec scenario of two records (timestamps 1000000000 and
1000000100, 32-byte tokens of 0xAA and 0xBB) followed by a graceful end of
stream parses to exactly those two records, in order, with no error and the
connection closed. -/
theorem feedback_parse_witness :
    Feedback (.ok ((([fr1, fr2]).map encodeFeedback).flatten, .eof)) =
      ⟨[fr1, fr2], none, true⟩ :=
  (feedback_parse_correct [fr1, fr2] .eof (by decide)).1
